import Mathlib

/-!
Verification development for the `yolo_test` repository.

The Python code is shallowly embedded: Python strings are modeled as
`List Char`, Python dicts with string keys as insertion-ordered association
lists (`PyDict`), machine integers as `Nat`/`Int`, and fallible code as
`Except`/`Option`.  Each definition mirrors one function (or one validated
pydantic model) from `src/yolo_test_app.py` / `src/validation_tool.py` and is
named after it where Lean allows.

External collaborators (PIL image decoding and rasterization, the YOLO
inference call, SQLite, the Streamlit UI) are modeled at their interfaces:
an uploaded file carries its decoded pixel size as an `Option`, raw
detections are an input list, drawing primitives act on a pixel map, and the
database is a record of table rows plus a file store.
-/

/-- The whitespace characters stripped by Python `str.strip()` and matched by
the regex class `\s` (ASCII range, which is all the repository ever feeds it). -/
def isPySpace (c : Char) : Bool :=
  c = ' ' || c = '\t' || c = '\n' || c = '\r' || c = '\x0b' || c = '\x0c'

/-- Python `s.lstrip()`. -/
def pyLStrip (s : List Char) : List Char := s.dropWhile isPySpace

/-- Python `s.rstrip()`. -/
def pyRStrip (s : List Char) : List Char := s.rdropWhile isPySpace

/-- Python `s.strip()`. -/
def pyStrip (s : List Char) : List Char := pyLStrip (pyRStrip s)

/-- One step of Python `s.split(sep)`: processed by `List.foldr` from the right,
a separator opens a new (empty) field, any other character is prepended to the
current first field. -/
def splitStep (sep : Char) (c : Char) (acc : List (List Char)) : List (List Char) :=
  if c = sep then [] :: acc
  else
    match acc with
    | [] => [[c]]
    | l :: ls => (c :: l) :: ls

/-- Python `s.split(sep)` for a single-character separator: always returns at
least one field; `"".split(sep) == [""]`. -/
def pySplit (sep : Char) (s : List Char) : List (List Char) :=
  s.foldr (splitStep sep) [[]]

/-- Python `line.split(sep, 1)`: the part before the first `sep` and the part
after it (the whole line and `[]` when `sep` does not occur; callers only use
it on lines that contain `sep`). -/
def pySplitOnce (sep : Char) : List Char → List Char × List Char
  | [] => ([], [])
  | c :: rest =>
    if c = sep then ([], rest)
    else
      let p := pySplitOnce sep rest
      (c :: p.1, p.2)

/-- A Python `dict` with string keys and string values, as an
insertion-ordered association list. -/
abbrev PyDict := List (List Char × List Char)

/-- Python `m[k] = v`: update in place if the key exists, append otherwise. -/
def dictSet (m : PyDict) (k v : List Char) : PyDict :=
  match m with
  | [] => [(k, v)]
  | (k', v') :: rest => if k' = k then (k, v) :: rest else (k', v') :: dictSet rest k v

/-- Python `m.get(k)` / `k in m` combined: the stored value, if any. -/
def dictGet? (m : PyDict) (k : List Char) : Option (List Char) :=
  match m with
  | [] => none
  | (k', v') :: rest => if k' = k then some v' else dictGet? rest k

/-- Python `m.update(other)`: every key of `other` is written into `m`. -/
def dictUpdate (m other : PyDict) : PyDict :=
  other.foldl (fun acc kv => dictSet acc kv.1 kv.2) m

/-- `get_default_colors` from `yolo_test_app.py`: the fixed 18-color palette,
in its declared order. -/
def get_default_colors : List (List Char) :=
  ["red".data, "blue".data, "green".data, "yellow".data, "purple".data, "orange".data,
   "cyan".data, "magenta".data, "lime".data, "pink".data, "brown".data, "gray".data,
   "navy".data, "olive".data, "teal".data, "maroon".data, "fuchsia".data, "aqua".data]

/-- `default_colors[i % len(default_colors)]`, the recurring fallback indexing. -/
def defaultColorAt (i : Nat) : List Char :=
  get_default_colors.get ⟨i % 18, by
    have h : get_default_colors.length = 18 := rfl
    omega⟩

/-- The class name a legend line contributes, if any: `none` for blank lines
and `#`-comments, the trimmed part before the first `:` for a colored line,
the whole trimmed line otherwise.  This mirrors the branch structure of the
loop body of `parse_unified_class_config`. -/
def lineClassName (l : List Char) : Option (List Char) :=
  let line := pyStrip l
  if line = [] then none
  else if line.head? = some '#' then none
  else if line.contains ':' then some (pyStrip (pySplitOnce ':' line).1)
  else some line

/-- The `for i, line in enumerate(lines)` loop of `parse_unified_class_config`:
`i` is the enumeration index, the dict is threaded through, class names are
collected in file order (duplicates kept).  A line with `:` stores its
explicit color; a bare line stores `default_colors[i % 18]`. -/
def parseUnifiedLoop : Nat → List (List Char) → PyDict → List (List Char) × PyDict
  | _, [], cmap => ([], cmap)
  | i, l :: rest, cmap =>
    let line := pyStrip l
    if line = [] then parseUnifiedLoop (i + 1) rest cmap
    else if line.head? = some '#' then parseUnifiedLoop (i + 1) rest cmap
    else if line.contains ':' then
      let cn := pyStrip (pySplitOnce ':' line).1
      let col := pyStrip (pySplitOnce ':' line).2
      let r := parseUnifiedLoop (i + 1) rest (dictSet cmap cn col)
      (cn :: r.1, r.2)
    else
      let r := parseUnifiedLoop (i + 1) rest (dictSet cmap line (defaultColorAt i))
      (line :: r.1, r.2)

/-- `parse_unified_class_config` from `yolo_test_app.py`: empty content yields
empty results; otherwise the content is stripped, split on newlines, and the
enumerated loop above runs over the resulting lines. -/
def parse_unified_class_config (content : List Char) : List (List Char) × PyDict :=
  if content = [] then ([], [])
  else parseUnifiedLoop 0 (pySplit '\n' (pyStrip content)) []

/-- The loop body of `parse_color_config` (the legacy color-only format):
`line.split(':')` with no maxsplit, keeping `parts[0]` and `parts[1]` when at
least two parts exist. -/
def parseColorLine (m : PyDict) (l : List Char) : PyDict :=
  let line := pyStrip l
  if line = [] then m
  else if line.head? = some '#' then m
  else
    match pySplit ':' line with
    | p0 :: p1 :: _ => dictSet m (pyStrip p0) (pyStrip p1)
    | _ => m

/-- `parse_color_config` from `yolo_test_app.py`. -/
def parse_color_config (content : List Char) : PyDict :=
  if content = [] then []
  else (pySplit '\n' (pyStrip content)).foldl parseColorLine []

/-- The `for i, class_name in enumerate(class_names_list)` default fill of
`process_image_with_yolo` (runs only when the color map is still empty). -/
def fillDefaultLoop : Nat → List (List Char) → PyDict → PyDict
  | _, [], m => m
  | i, n :: rest, m => fillDefaultLoop (i + 1) rest (dictSet m n (defaultColorAt i))

/-- Lines 289-301 of `process_image_with_yolo`: parse the unified legend; if
its color map is empty and a legacy color configuration was supplied, merge
the legacy map in; if the map is still empty, fill it with default colors by
class-list position. -/
def buildColorMap (class_names color_config_content : List Char) :
    List (List Char) × PyDict :=
  let r := parse_unified_class_config class_names
  let cmap1 := if r.2 = [] ∧ color_config_content ≠ [] then
      dictUpdate r.2 (parse_color_config color_config_content)
    else r.2
  let cmap2 := if cmap1 = [] then fillDefaultLoop 0 r.1 [] else cmap1
  (r.1, cmap2)

/-- Lines 338-347 of `process_image_with_yolo`: the class name is
`class_names_list[class_id]` when in range, `f"Class {class_id}"` otherwise;
the color is the map entry for that name when present, else
`default_colors[class_id % 18]`. -/
def resolveDetectionColor (names : List (List Char)) (cmap : PyDict)
    (class_id : Nat) : List Char :=
  let class_name :=
    if h : class_id < names.length then names.get ⟨class_id, h⟩
    else ("Class " ++ toString class_id).data
  match dictGet? cmap class_name with
  | some c => c
  | none => defaultColorAt class_id

/-- The end-to-end color resolution of `process_image_with_yolo` for one
detected class index, as a function of the two stored configuration texts. -/
def processColor (class_names color_config_content : List Char)
    (class_id : Nat) : List Char :=
  let r := buildColorMap class_names color_config_content
  resolveDetectionColor r.1 r.2 class_id

/-! ### Validation layer (pydantic models of `yolo_test_app.py`, lines 397-542)

A pydantic validation error carries a field location, whether it came from a
`ValueError` raised inside an `@validator` (rendered as its bare message) or
from a built-in field constraint (rendered as `"{loc}: {msg}"`), and the
message text.  Exact constraint wording varies across pydantic releases; no
claim depends on it. -/

structure FieldErr where
  loc : List Char
  isValueError : Bool
  msg : List Char
deriving DecidableEq

/-- The valid-color set of `ClassColorEntry.validate_color`, listed in the
order the set literal is written (CPython iterates a `str` set in an
unspecified order; only membership, which is order-free, matters to claims). -/
def valid_colors : List (List Char) :=
  ["red".data, "blue".data, "green".data, "yellow".data, "purple".data, "orange".data,
   "cyan".data, "magenta".data, "lime".data, "pink".data, "brown".data, "gray".data,
   "navy".data, "olive".data, "teal".data, "maroon".data, "fuchsia".data, "aqua".data]

/-- Python `", ".join(...)` / `"; ".join(...)`. -/
def pyJoin (sep : List Char) (parts : List (List Char)) : List Char :=
  List.intercalate sep parts

/-- The characters kept by `re.sub(r'[^\w\s-]', '', ...)` in
`validate_class_name`: word characters (ASCII model of `\w`), whitespace, and
the hyphen. -/
def wordKeepChar (c : Char) : Bool :=
  c.isAlphanum || c = '_' || isPySpace c || c = '-'

/-- `ClassColorEntry.validate_class_name` together with the field constraints
`min_length=1, max_length=100` (constraints run first; the validator strips
the value, deletes disallowed characters, and rejects empty results). -/
def classNameValidate (v : List Char) : Except FieldErr (List Char) :=
  if v.length < 1 then
    .error ⟨"class_name".data, false, "ensure this value has at least 1 characters".data⟩
  else if 100 < v.length then
    .error ⟨"class_name".data, false, "ensure this value has at most 100 characters".data⟩
  else if pyStrip v = [] then
    .error ⟨"class_name".data, true, "Class name cannot be empty".data⟩
  else
    let cleaned := (pyStrip v).filter wordKeepChar
    if cleaned = [] then
      .error ⟨"class_name".data, true, "Class name must contain valid characters".data⟩
    else .ok cleaned

/-- `ClassColorEntry.validate_color` together with the field constraint
`max_length=20`: `None` passes through; otherwise the lowercased value must be
one of the 18 palette colors and is stored lowercased. -/
def colorValidate : Option (List Char) → Except FieldErr (Option (List Char))
  | none => .ok none
  | some v =>
    if 20 < v.length then
      .error ⟨"color".data, false, "ensure this value has at most 20 characters".data⟩
    else
      let lower := v.map Char.toLower
      if lower ∈ valid_colors then .ok (some lower)
      else
        .error ⟨"color".data, true,
          "Invalid color: ".data ++ v ++ ". Valid colors are: ".data ++
            pyJoin ", ".data valid_colors⟩

/-- The validated `ClassColorEntry` pydantic model. -/
structure ClassColorEntry where
  class_name : List Char
  color : Option (List Char)
deriving DecidableEq

/-- Constructing a `ClassColorEntry(class_name=..., color=...)`: pydantic
validates the fields in declaration order and collects every field error; the
construction raises (here: returns `.error`) when any field fails. -/
def mkClassColorEntry (cn : List Char) (col : Option (List Char)) :
    Except (List FieldErr) ClassColorEntry :=
  match classNameValidate cn, colorValidate col with
  | .ok n, .ok c => .ok ⟨n, c⟩
  | .error e1, .error e2 => .error [e1, e2]
  | .error e1, .ok _ => .error [e1]
  | .ok _, .error e2 => .error [e2]

/-- The entry-building loop of `validate_class_color_file` (lines 472-484):
blank and comment lines are skipped; a line with `:` is split on the first
`:` into a name and a color; any other line is a name with no color.  The
first entry whose construction raises aborts the loop. -/
def legendEntriesLoop : List (List Char) → Except (List FieldErr) (List ClassColorEntry)
  | [] => .ok []
  | l :: rest =>
    let line := pyStrip l
    if line = [] then legendEntriesLoop rest
    else if line.head? = some '#' then legendEntriesLoop rest
    else
      let cn := if line.contains ':' then pyStrip (pySplitOnce ':' line).1 else line
      let col := if line.contains ':' then some (pyStrip (pySplitOnce ':' line).2) else none
      match mkClassColorEntry cn col with
      | .error errs => .error errs
      | .ok e =>
        match legendEntriesLoop rest with
        | .error errs => .error errs
        | .ok es => .ok (e :: es)

/-- Python `set(...)` modeled as first-occurrence deduplication (CPython set
iteration order is unspecified; claims never exercise the duplicate branch's
ordering). -/
def firstDedup : List (List Char) → List (List Char)
  | [] => []
  | x :: t => x :: (firstDedup t).filter (fun y => y ≠ x)

/-- The `ClassColorConfig` constraints: `min_items=1, max_items=1000` on
`entries`, then `validate_unique_class_names` reporting every duplicated
class name. -/
def configErrs (entries : List ClassColorEntry) : List FieldErr :=
  if entries.length < 1 then
    [⟨"entries".data, false, "ensure this value has at least 1 items".data⟩]
  else if 1000 < entries.length then
    [⟨"entries".data, false, "ensure this value has at most 1000 items".data⟩]
  else
    let names := entries.map (fun e => e.class_name)
    let dups := (firstDedup names).filter (fun n => 1 < names.count n)
    if dups = [] then []
    else [⟨"entries".data, true,
      "Duplicate class names found: ".data ++ pyJoin ", ".data dups⟩]

/-- The validated `ClassColorConfig` pydantic model. -/
structure ClassColorConfig where
  entries : List ClassColorEntry
deriving DecidableEq

/-- The `except ValidationError` rendering shared by both validators:
`value_error`s print their bare message, other errors print
`"{loc}: {msg}"`, all joined by `"; "` behind a `"Validation errors: "`
banner. -/
def renderErrors (errs : List FieldErr) : List Char :=
  "Validation errors: ".data ++
    pyJoin "; ".data
      (errs.map (fun e => if e.isValueError then e.msg else e.loc ++ ": ".data ++ e.msg))

/-- `validate_class_color_file` from `yolo_test_app.py` (content-based
variant): returns `(is_valid, message, config)`. -/
def validate_class_color_file (content : List Char) :
    Bool × List Char × Option ClassColorConfig :=
  match legendEntriesLoop (pySplit '\n' (pyStrip content)) with
  | .error errs => (false, renderErrors errs, none)
  | .ok entries =>
    if entries = [] then (false, "No valid class entries found in file".data, none)
    else
      match configErrs entries with
      | [] => (true, "Valid configuration with ".data ++ (toString entries.length).data ++
                " classes".data, some ⟨entries⟩)
      | errs => (false, renderErrors errs, none)

/-- The dangerous filename characters of `ImageValidation.validate_file_name`. -/
def dangerousChars : List Char := ['<', '>', ':', '"', '|', '?', '*', '\\', '/']

/-- The accepted extensions of `ImageValidation.validate_file_type`. -/
def validExts : List (List Char) :=
  [".jpg".data, ".jpeg".data, ".png".data, ".bmp".data]

/-- The extension part of `os.path.splitext(name)[1]`: the suffix starting at
the last `.`, empty when there is no dot or when every character before the
last dot is itself a dot (leading dots never start an extension).  Path
separators are not modeled; the app only passes plain upload file names. -/
def lastDotSuffix : List Char → Option (List Char)
  | [] => none
  | c :: rest =>
    match lastDotSuffix rest with
    | some s => some s
    | none => if c = '.' then some (c :: rest) else none

/-- `os.path.splitext(name)[1]`. -/
def splitextExt (name : List Char) : List Char :=
  match lastDotSuffix name with
  | none => []
  | some s =>
    let stem := name.take (name.length - s.length)
    if stem.any (fun c => c ≠ '.') then s else []

/-- `file_name` checks of `ImageValidation`: constraints
`min_length=1, max_length=255`, then `validate_file_name` (non-blank after
strip, none of the dangerous characters). -/
def imageFileNameErrs (v : List Char) : List FieldErr :=
  if v.length < 1 then
    [⟨"file_name".data, false, "ensure this value has at least 1 characters".data⟩]
  else if 255 < v.length then
    [⟨"file_name".data, false, "ensure this value has at most 255 characters".data⟩]
  else if pyStrip v = [] then
    [⟨"file_name".data, true, "File name cannot be empty".data⟩]
  else if dangerousChars.any (fun c => v.contains c) then
    [⟨"file_name".data, true,
      "File name contains invalid characters: ['<', '>', ':', '\"', '|', '?', '*', '\\\\', '/']".data⟩]
  else []

/-- `file_size` checks of `ImageValidation`: `gt=0, le=50*1024*1024`. -/
def imageFileSizeErrs (v : Nat) : List FieldErr :=
  if v = 0 then
    [⟨"file_size".data, false, "ensure this value is greater than 0".data⟩]
  else if 50 * 1024 * 1024 < v then
    [⟨"file_size".data, false, "ensure this value is less than or equal to 52428800".data⟩]
  else []

/-- `file_type` checks of `ImageValidation`: the `pattern` constraint
`\.(jpg|jpeg|png|bmp)$` (a suffix match), then `validate_file_type`
(lowercased membership in the valid extension list). -/
def imageFileTypeErrs (v : List Char) : List FieldErr :=
  if validExts.any (fun e => List.isSuffixOf e v) = false then
    [⟨"file_type".data, false,
      "string does not match regex \"\\.(jpg|jpeg|png|bmp)$\"".data⟩]
  else if (v.map Char.toLower ∈ validExts) = false then
    [⟨"file_type".data, true,
      "Invalid file type: ".data ++ v ++ ". Valid types are: ".data ++
        pyJoin ", ".data validExts⟩]
  else []

/-- A dimension check of `ImageValidation`: `gt=0, le=10000`. -/
def imageDimErrs (locName : List Char) (v : Nat) : List FieldErr :=
  if v = 0 then
    [⟨locName, false, "ensure this value is greater than 0".data⟩]
  else if 10000 < v then
    [⟨locName, false, "ensure this value is less than or equal to 10000".data⟩]
  else []

/-- The validated `ImageValidation` pydantic model. -/
structure ImageValidationRec where
  file_name : List Char
  file_size : Nat
  file_type : List Char
  image_width : Nat
  image_height : Nat
deriving DecidableEq

/-- Constructing `ImageValidation(...)`: every field is checked in
declaration order and all field errors are collected; the construction raises
(returns `.error`) when any field fails, otherwise the normalized record
(stripped name, lowercased type) is produced. -/
def mkImageValidation (name : List Char) (size : Nat) (ftype : List Char)
    (w h : Nat) : Except (List FieldErr) ImageValidationRec :=
  let errs := imageFileNameErrs name ++ imageFileSizeErrs size ++
    imageFileTypeErrs ftype ++ imageDimErrs "image_width".data w ++
    imageDimErrs "image_height".data h
  if errs = [] then
    .ok ⟨pyStrip name, size, ftype.map Char.toLower, w, h⟩
  else .error errs

/-- An uploaded file as `validate_image_file` sees it: its name, its byte
size, and — modeling the external PIL decoder — the pixel dimensions, `none`
when `Image.open` raises. -/
structure UploadedFile where
  name : List Char
  size : Nat
  decoded : Option (Nat × Nat)
deriving DecidableEq

/-- The message of `validate_image_file`, structured (the success message's
float formatting of the size in MB is an external formatting detail no claim
depends on). -/
inductive ImageMsg where
  /-- The inner `except Exception` fired because `Image.open` raised. -/
  | invalidFormatDecode : ImageMsg
  /-- The inner `except Exception` fired because the `ImageValidation(...)`
  construction raised `ValidationError` (a subclass of `Exception`) inside
  the inner `try`; the message is still prefixed `"Invalid image format: "`.
  The outer `except ValidationError` handler of the source is unreachable for
  construction errors and therefore has no arm here. -/
  | invalidFormatValidation (errs : List FieldErr) : ImageMsg
  /-- `"Valid image: {w}x{h}, ...MB"`. -/
  | validImage (w h size : Nat) : ImageMsg
deriving DecidableEq

/-- `validate_image_file` from `yolo_test_app.py` (lines 504-542): returns
`(is_valid, message)`; the validated record, when any, is recoverable from
the inputs and is omitted. -/
def validate_image_file (f : UploadedFile) : Bool × ImageMsg :=
  let file_ext := (splitextExt f.name).map Char.toLower
  match f.decoded with
  | none => (false, .invalidFormatDecode)
  | some wh =>
    match mkImageValidation f.name f.size file_ext wh.1 wh.2 with
    | .ok _ => (true, .validImage wh.1 wh.2 f.size)
    | .error errs => (false, .invalidFormatValidation errs)

/-! ### Annotation renderer (`process_image_with_yolo`, lines 303-384)

A PIL image is a pixel map with a size; drawing primitives recolor pixels.
Exact PIL rasterization (line joins, font glyphs) is external; the model
draws the same rectangles and marks the label area, which is enough for every
claim about the renderer.  Confidences are the external library's floats;
their `:.2f` rendering is modeled by `toString`. -/

structure PILImage where
  width : Nat
  height : Nat
  pix : Int → Int → List Char

/-- `image.copy()`. -/
def copyImage (img : PILImage) : PILImage := ⟨img.width, img.height, img.pix⟩

/-- Whether a point lies on the `width`-thick outline of the rectangle
`[x1, y1, x2, y2]`. -/
def onOutline (x1 y1 x2 y2 : Int) (w : Nat) (x y : Int) : Bool :=
  x1 ≤ x && x ≤ x2 && y1 ≤ y && y ≤ y2 &&
    (x < x1 + w || x2 - w < x || y < y1 + w || y2 - w < y)

/-- `draw.rectangle([x1, y1, x2, y2], outline=color, width=w)`. -/
def drawRectOutlinePix (img : PILImage) (x1 y1 x2 y2 : Int) (color : List Char)
    (w : Nat) : PILImage :=
  { img with pix := fun x y => if onOutline x1 y1 x2 y2 w x y then color else img.pix x y }

/-- `draw.rectangle([x1, y1, x2, y2], fill=color)`. -/
def drawRectFillPix (img : PILImage) (x1 y1 x2 y2 : Int) (color : List Char) :
    PILImage :=
  { img with pix := fun x y =>
      if x1 ≤ x && x ≤ x2 && y1 ≤ y && y ≤ y2 then color else img.pix x y }

/-- `draw.text((x, y), label, fill=color, font=font)`: the glyph raster is
external; the model recolors the measured text box. -/
def drawTextPix (img : PILImage) (x y : Int) (tw th : Nat) (color : List Char) :
    PILImage :=
  { img with pix := fun px py =>
      if x ≤ px && px < x + tw && y ≤ py && py < y + th then color else img.pix px py }

/-- One raw detection as the external YOLO call returns it: a box, a
confidence, a class id. -/
structure RawDetection where
  x1 : Int
  y1 : Int
  x2 : Int
  y2 : Int
  conf : Float
  cls : Nat

/-- One structured detection record appended to `detection_data`. -/
structure Detection where
  class_name : List Char
  conf : Float
  bbox : Int × Int × Int × Int
  color : List Char

/-- The per-detection body of the result loop (lines 329-378): resolve name
and color, draw the 4-wide box outline, compose the label
`"{class_name}: {conf:.2f}"`, measure it (`tm` is the external
font/`textbbox` measurement, with the `len(label)*12` by `20` fallback
supplied by the caller when measurement is unavailable), draw the label
background ending at the box top and clamped at 0, draw the white label
text, and append the structured record. -/
def drawDetection (tm : List Char → Nat × Nat) (names : List (List Char))
    (cmap : PyDict) (acc : PILImage × List Detection) (d : RawDetection) :
    PILImage × List Detection :=
  let class_name :=
    if h : d.cls < names.length then names.get ⟨d.cls, h⟩
    else ("Class " ++ toString d.cls).data
  let color :=
    match dictGet? cmap class_name with
    | some c => c
    | none => defaultColorAt d.cls
  let img1 := drawRectOutlinePix acc.1 d.x1 d.y1 d.x2 d.y2 color 4
  let label := class_name ++ ": ".data ++ (toString d.conf).data
  let ts := tm label
  let text_bg_y1 := max 0 (d.y1 - ts.2 - 5)
  let img2 := drawRectFillPix img1 d.x1 text_bg_y1 (d.x1 + ts.1 + 10) d.y1 color
  let img3 := drawTextPix img2 (d.x1 + 5) (text_bg_y1 + 2) ts.1 ts.2 "white".data
  (img3, acc.2 ++ [⟨class_name, d.conf, (d.x1, d.y1, d.x2, d.y2), color⟩])

/-- `process_image_with_yolo` from `yolo_test_app.py`, given the raw
detections the external model produced for the image: build the color map
from the two stored configuration texts, copy the input image, then run the
detection loop.  Returns the annotated image and the structured detection
list in raw-detection order. -/
def process_image_with_yolo (image : PILImage) (raw : List RawDetection)
    (class_names color_config_content : List Char)
    (tm : List Char → Nat × Nat) : PILImage × List Detection :=
  let r := buildColorMap class_names color_config_content
  raw.foldl (drawDetection tm r.1 r.2) (copyImage image, [])

/-! ### Persistence layer (project deletion, `main`, lines 1039-1056)

The two SQLite tables and the `models/` directory are modeled as row lists
and a stored-file list. -/

structure ProjectRow where
  id : Nat
  name : List Char
  creator : List Char
  model_path : List Char
  class_names : List Char
  color_config : List Char
deriving DecidableEq

structure ImageRow where
  id : Nat
  project_id : Nat
  detection_results : List Char
deriving DecidableEq

structure DBState where
  projects : List ProjectRow
  images : List ImageRow
  files : List (List Char)
deriving DecidableEq

/-- The project-deletion block of `main` (lines 1039-1052):
`DELETE FROM images WHERE project_id = ?`, `DELETE FROM projects WHERE id = ?`,
then `os.remove(project[3])` inside `try ... except: pass`, so a missing
artifact file is silently tolerated.  `model_path` is the stale `project[3]`
of the row being deleted. -/
def deleteProjectAction (db : DBState) (pid : Nat) (model_path : List Char) :
    DBState :=
  { projects := db.projects.filter (fun p => p.id ≠ pid)
    images := db.images.filter (fun r => r.project_id ≠ pid)
    files := db.files.filter (fun f => f ≠ model_path) }

/-! ### Helper lemmas: splitting and stripping -/

theorem splitStep_ne_nil (sep c : Char) (acc : List (List Char)) :
    splitStep sep c acc ≠ [] := by
  unfold splitStep
  by_cases h : c = sep
  · simp [h]
  · cases acc <;> simp [h]

theorem pySplit_ne_nil (sep : Char) (s : List Char) : pySplit sep s ≠ [] := by
  cases s with
  | nil => simp [pySplit]
  | cons c t => exact splitStep_ne_nil sep c _

theorem pySplit_cons (sep c : Char) (s : List Char) :
    pySplit sep (c :: s) = splitStep sep c (pySplit sep s) := rfl

theorem foldr_splitStep_single_ne_nil (sep : Char) (s : List Char) (a : List Char) :
    s.foldr (splitStep sep) [a] ≠ [] := by
  cases s with
  | nil => simp
  | cons c t => exact splitStep_ne_nil sep c _

theorem foldr_splitStep_append (sep : Char) (s : List Char) (a : List Char)
    (rest : List (List Char)) :
    s.foldr (splitStep sep) (a :: rest) = s.foldr (splitStep sep) [a] ++ rest := by
  induction s with
  | nil => rfl
  | cons c t ih =>
    simp only [List.foldr_cons, ih]
    rcases hne : t.foldr (splitStep sep) [a] with _ | ⟨h, ls⟩
    · exact absurd hne (foldr_splitStep_single_ne_nil sep t a)
    · unfold splitStep
      by_cases hc : c = sep <;> simp [hc]

theorem pySplit_last_spec (sep : Char) (s : List Char) :
    ∃ ys y, pySplit sep s = ys ++ [y] ∧
      ∀ x, s.foldr (splitStep sep) [x] = ys ++ [y ++ x] := by
  induction s with
  | nil => exact ⟨[], [], rfl, fun x => rfl⟩
  | cons c t ih =>
    obtain ⟨ys, y, h1, h2⟩ := ih
    by_cases hc : c = sep
    · refine ⟨[] :: ys, y, ?_, fun x => ?_⟩
      · rw [pySplit_cons, h1]; simp [splitStep, hc]
      · simp only [List.foldr_cons, h2 x]; simp [splitStep, hc]
    · cases ys with
      | nil =>
        refine ⟨[], c :: y, ?_, fun x => ?_⟩
        · rw [pySplit_cons, h1]; simp [splitStep, hc]
        · simp only [List.foldr_cons, h2 x]; simp [splitStep, hc]
      | cons z zs =>
        refine ⟨(c :: z) :: zs, y, ?_, fun x => ?_⟩
        · rw [pySplit_cons, h1]; simp [splitStep, hc]
        · simp only [List.foldr_cons, h2 x]; simp [splitStep, hc]

theorem pySplit_snoc (sep : Char) (s : List Char) (c : Char) :
    pySplit sep (s ++ [c]) =
      if c = sep then pySplit sep s ++ [[]]
      else s.foldr (splitStep sep) [[c]] := by
  unfold pySplit
  rw [List.foldr_append]
  simp only [List.foldr_cons, List.foldr_nil]
  by_cases hc : c = sep
  · rw [if_pos hc]
    have : splitStep sep c [[]] = [] :: [[]] := by simp [splitStep, hc]
    rw [this, foldr_splitStep_append]
  · rw [if_neg hc]
    have : splitStep sep c [[]] = [[c]] := by simp [splitStep, hc]
    rw [this]

theorem dropWhile_snoc_of_pos (p : Char → Bool) (xs : List Char) (c : Char)
    (hc : p c = true) :
    (xs ++ [c]).dropWhile p =
      if xs.dropWhile p = [] then [] else xs.dropWhile p ++ [c] := by
  induction xs with
  | nil => simp [List.dropWhile, hc]
  | cons x t ih =>
    by_cases hx : p x = true
    · simp only [List.cons_append, List.dropWhile_cons, hx, if_true, ih]
    · simp only [List.cons_append, List.dropWhile_cons, hx]
      simp

theorem pyStrip_snoc_ws (y : List Char) (c : Char) (hc : isPySpace c = true) :
    pyStrip (y ++ [c]) = pyStrip y := by
  unfold pyStrip pyRStrip
  rw [List.rdropWhile_concat_pos _ _ _ hc]

theorem pyStrip_cons_ws (c : Char) (y : List Char) (hc : isPySpace c = true) :
    pyStrip (c :: y) = pyStrip y := by
  unfold pyStrip pyRStrip List.rdropWhile
  rw [show (c :: y).reverse = y.reverse ++ [c] by simp]
  rw [dropWhile_snoc_of_pos _ _ _ hc]
  by_cases h : y.reverse.dropWhile isPySpace = []
  · simp [h]
  · rw [if_neg h]
    rw [List.reverse_append]
    simp only [List.reverse_cons, List.reverse_nil, List.nil_append, List.singleton_append]
    unfold pyLStrip
    rw [List.dropWhile_cons, if_pos hc]

theorem lineClassName_nil : lineClassName [] = none := rfl

theorem lineClassName_cons_ws (c : Char) (l : List Char) (hc : isPySpace c = true) :
    lineClassName (c :: l) = lineClassName l := by
  unfold lineClassName
  rw [pyStrip_cons_ws c l hc]

theorem lineClassName_snoc_ws (l : List Char) (c : Char) (hc : isPySpace c = true) :
    lineClassName (l ++ [c]) = lineClassName l := by
  unfold lineClassName
  rw [pyStrip_snoc_ws l c hc]

theorem filterMap_pySplit_cons_ws (c : Char) (s : List Char)
    (hc : isPySpace c = true) :
    (pySplit '\n' (c :: s)).filterMap lineClassName =
      (pySplit '\n' s).filterMap lineClassName := by
  rw [pySplit_cons]
  by_cases hnl : c = '\n'
  · simp [splitStep, hnl, List.filterMap_cons, lineClassName_nil]
  · rcases hne : pySplit '\n' s with _ | ⟨h, ls⟩
    · exact absurd hne (pySplit_ne_nil _ _)
    · simp only [splitStep, hnl, if_false, List.filterMap_cons,
        lineClassName_cons_ws c h hc]

theorem filterMap_pySplit_snoc_ws (s : List Char) (c : Char)
    (hc : isPySpace c = true) :
    (pySplit '\n' (s ++ [c])).filterMap lineClassName =
      (pySplit '\n' s).filterMap lineClassName := by
  rw [pySplit_snoc]
  by_cases hnl : c = '\n'
  · rw [if_pos hnl, List.filterMap_append]
    simp [lineClassName_nil]
  · rw [if_neg hnl]
    obtain ⟨ys, y, h1, h2⟩ := pySplit_last_spec '\n' s
    rw [h2 [c], h1, List.filterMap_append, List.filterMap_append]
    simp only [List.filterMap_cons, List.filterMap_nil,
      lineClassName_snoc_ws y c hc]

theorem filterMap_pySplit_lstrip (s : List Char) :
    (pySplit '\n' (pyLStrip s)).filterMap lineClassName =
      (pySplit '\n' s).filterMap lineClassName := by
  induction s with
  | nil => rfl
  | cons c t ih =>
    by_cases hc : isPySpace c = true
    · have h1 : pyLStrip (c :: t) = pyLStrip t := by
        unfold pyLStrip
        rw [List.dropWhile_cons, if_pos hc]
      rw [h1, ih, filterMap_pySplit_cons_ws c t hc]
    · have h1 : pyLStrip (c :: t) = c :: t := by
        unfold pyLStrip
        rw [List.dropWhile_cons, if_neg hc]
      rw [h1]

theorem filterMap_pySplit_rstrip (s : List Char) :
    (pySplit '\n' (pyRStrip s)).filterMap lineClassName =
      (pySplit '\n' s).filterMap lineClassName := by
  induction s using List.reverseRecOn with
  | nil => rfl
  | append_singleton l a ih =>
    by_cases ha : isPySpace a = true
    · have h1 : pyRStrip (l ++ [a]) = pyRStrip l := by
        unfold pyRStrip
        exact List.rdropWhile_concat_pos _ _ _ ha
      rw [h1, ih, filterMap_pySplit_snoc_ws l a ha]
    · have h1 : pyRStrip (l ++ [a]) = l ++ [a] := by
        unfold pyRStrip
        exact List.rdropWhile_concat_neg _ _ _ ha
      rw [h1]

theorem filterMap_pySplit_strip (s : List Char) :
    (pySplit '\n' (pyStrip s)).filterMap lineClassName =
      (pySplit '\n' s).filterMap lineClassName := by
  unfold pyStrip
  rw [filterMap_pySplit_lstrip (pyRStrip s), filterMap_pySplit_rstrip s]

/-! ### Helper lemmas: the unified parser loop -/

theorem parseUnifiedLoop_names (ls : List (List Char)) :
    ∀ i m, (parseUnifiedLoop i ls m).1 = ls.filterMap lineClassName := by
  induction ls with
  | nil => intro i m; rfl
  | cons l rest ih =>
    intro i m
    rw [List.filterMap_cons]
    simp only [parseUnifiedLoop, lineClassName]
    split_ifs with h1 h2 h3
    · exact ih (i + 1) m
    · exact ih (i + 1) m
    · simp only []
      rw [ih]
    · simp only []
      rw [ih]

theorem length_filterMap_eq_length_filter {α β : Type} (f : α → Option β)
    (l : List α) :
    (l.filterMap f).length = (l.filter (fun x => (f x).isSome)).length := by
  induction l with
  | nil => rfl
  | cons a t ih =>
    rcases h : f a with _ | b <;>
      simp [List.filterMap_cons, List.filter_cons, h, ih]

theorem dictGet?_dictSet (m : PyDict) (k v q : List Char) :
    dictGet? (dictSet m k v) q = if q = k then some v else dictGet? m q := by
  induction m with
  | nil =>
    by_cases h : q = k
    · simp [dictSet, dictGet?, h]
    · have h' : ¬ k = q := fun hh => h hh.symm
      simp [dictSet, dictGet?, h, h']
  | cons kv rest ih =>
    obtain ⟨k', v'⟩ := kv
    by_cases hk : k' = k
    · subst hk
      by_cases hq : q = k'
      · subst hq; simp [dictSet, dictGet?]
      · have hq' : ¬ k' = q := fun hh => hq hh.symm
        simp [dictSet, dictGet?, hq, hq']
    · by_cases hq : k' = q
      · have h1 : ¬ q = k := fun hh => hk (hq.trans hh)
        simp [dictSet, dictGet?, hk, hq, h1]
      · simp [dictSet, dictGet?, hk, hq, ih]

theorem parseUnifiedLoop_no_key (ls : List (List Char)) :
    ∀ i m k, (∀ l ∈ ls, lineClassName l ≠ some k) →
      dictGet? (parseUnifiedLoop i ls m).2 k = dictGet? m k := by
  induction ls with
  | nil => intro i m k _; rfl
  | cons l rest ih =>
    intro i m k hall
    have hl : lineClassName l ≠ some k := hall l (List.mem_cons_self l rest)
    have hrest : ∀ l' ∈ rest, lineClassName l' ≠ some k :=
      fun l' h => hall l' (List.mem_cons_of_mem l h)
    simp only [lineClassName] at hl
    simp only [parseUnifiedLoop]
    split_ifs at hl ⊢ with h1 h2 h3
    · exact ih (i + 1) m k hrest
    · exact ih (i + 1) m k hrest
    · have hne : pyStrip (pySplitOnce ':' (pyStrip l)).1 ≠ k := by
        intro hh
        exact hl (congrArg some hh)
      rw [ih (i + 1) _ k hrest, dictGet?_dictSet,
        if_neg (fun hh => hne hh.symm)]
    · have hne : pyStrip l ≠ k := by
        intro hh
        exact hl (congrArg some hh)
      rw [ih (i + 1) _ k hrest, dictGet?_dictSet,
        if_neg (fun hh => hne hh.symm)]

theorem parseUnifiedLoop_bare_lookup (pre : List (List Char)) :
    ∀ i m l post, pyStrip l ≠ [] → (pyStrip l).head? ≠ some '#' →
      (pyStrip l).contains ':' = false →
      (∀ l' ∈ post, lineClassName l' ≠ some (pyStrip l)) →
      dictGet? (parseUnifiedLoop i (pre ++ l :: post) m).2 (pyStrip l) =
        some (defaultColorAt (i + pre.length)) := by
  induction pre with
  | nil =>
    intro i m l post h1 h2 h3 hlater
    simp only [List.nil_append, parseUnifiedLoop]
    rw [if_neg h1, if_neg h2, if_neg (by rw [h3]; simp)]
    rw [parseUnifiedLoop_no_key post (i + 1) _ _ hlater, dictGet?_dictSet,
      if_pos rfl]
    simp
  | cons p pt ih =>
    intro i m l post h1 h2 h3 hlater
    simp only [List.cons_append, parseUnifiedLoop, List.append_eq]
    have harg : (i + 1) + pt.length = i + (p :: pt).length := by
      simp [List.length_cons]; omega
    split_ifs with hp1 hp2 hp3
    · rw [ih (i + 1) m l post h1 h2 h3 hlater, harg]
    · rw [ih (i + 1) m l post h1 h2 h3 hlater, harg]
    · rw [ih (i + 1) _ l post h1 h2 h3 hlater, harg]
    · rw [ih (i + 1) _ l post h1 h2 h3 hlater, harg]

theorem parseUnifiedLoop_domain (ls : List (List Char)) :
    ∀ i m k, (dictGet? (parseUnifiedLoop i ls m).2 k).isSome ↔
      ((dictGet? m k).isSome ∨ k ∈ (parseUnifiedLoop i ls m).1) := by
  induction ls with
  | nil => intro i m k; simp [parseUnifiedLoop]
  | cons l rest ih =>
    intro i m k
    simp only [parseUnifiedLoop]
    split_ifs with h1 h2 h3
    · exact ih (i + 1) m k
    · exact ih (i + 1) m k
    · simp only [List.mem_cons]
      rw [ih (i + 1) _ k, dictGet?_dictSet]
      by_cases hk : k = pyStrip (pySplitOnce ':' (pyStrip l)).1
      · simp [hk]
      · simp only [if_neg hk]
        constructor
        · rintro (hs | hm)
          · exact Or.inl hs
          · exact Or.inr (Or.inr hm)
        · rintro (hs | hkk | hm)
          · exact Or.inl hs
          · exact absurd hkk hk
          · exact Or.inr hm
    · simp only [List.mem_cons]
      rw [ih (i + 1) _ k, dictGet?_dictSet]
      by_cases hk : k = pyStrip l
      · simp [hk]
      · simp only [if_neg hk]
        constructor
        · rintro (hs | hm)
          · exact Or.inl hs
          · exact Or.inr (Or.inr hm)
        · rintro (hs | hkk | hm)
          · exact Or.inl hs
          · exact absurd hkk hk
          · exact Or.inr hm

/-! ### Claim theorems -/

/-- C1, counterexample: for the one-line legend `"cat"` — a non-blank,
non-comment line containing no `:` — the parser's color map nevertheless
holds an entry for `cat` (the default color `red`), refuting the claim that
such a line adds no entry to the color map. -/
theorem claim_C1_counterexample :
    ("cat".data.contains ':') = false ∧
    (parse_unified_class_config "cat".data).1 = ["cat".data] ∧
    dictGet? (parse_unified_class_config "cat".data).2 "cat".data =
      some "red".data := by
  decide

/-- C1, amended: the color map of `parse_unified_class_config` has an entry
for a name exactly when the name is in the class list — lines with `:` store
their explicit color and bare lines store a default palette color, so bare
lines do contribute map entries. -/
theorem claim_C1_amended (content : List Char) (k : List Char) :
    (dictGet? (parse_unified_class_config content).2 k).isSome ↔
      k ∈ (parse_unified_class_config content).1 := by
  by_cases h : content = []
  · subst h
    simp [parse_unified_class_config, dictGet?]
  · unfold parse_unified_class_config
    rw [if_neg h]
    have hd := parseUnifiedLoop_domain (pySplit '\n' (pyStrip content)) 0 [] k
    simpa [dictGet?] using hd

/-- C4: for every legend text, the class-name list returned by
`parse_unified_class_config` is exactly the per-line class names of the
non-blank, non-comment lines of the text, in file order — hence exactly N
names for N such lines (with or without duplicate names). -/
theorem claim_C4 (content : List Char) :
    (parse_unified_class_config content).1 =
      (pySplit '\n' content).filterMap lineClassName ∧
    (parse_unified_class_config content).1.length =
      ((pySplit '\n' content).filter (fun l => (lineClassName l).isSome)).length := by
  have key : (parse_unified_class_config content).1 =
      (pySplit '\n' content).filterMap lineClassName := by
    by_cases h : content = []
    · subst h; rfl
    · unfold parse_unified_class_config
      rw [if_neg h, parseUnifiedLoop_names, filterMap_pySplit_strip]
  exact ⟨key, by rw [key, length_filterMap_eq_length_filter]⟩

/-- C10, counterexample: in the legend `"\ncat"` the bare line `cat` sits at
zero-based position 1 among the file's lines (the first line is blank), so
the claim predicts the default color `palette[1] = blue`; the code strips the
content before enumerating, so `cat` is enumerated at index 0 and receives
`red`. -/
theorem claim_C10_counterexample :
    pySplit '\n' "\ncat".data = [[], "cat".data] ∧
    lineClassName "cat".data = some "cat".data ∧
    dictGet? (parse_unified_class_config "\ncat".data).2 "cat".data =
      some "red".data ∧
    defaultColorAt 1 = "blue".data ∧
    "red".data ≠ "blue".data := by
  decide

/-- C10, amended: a bare (non-blank, non-comment, colon-free) line at
zero-based position `pre.length` among the lines of the *stripped* content —
blank and comment lines still counted — whose class name is not written again
by any later line, ends up mapped to the default color at palette position
`pre.length % 18`. -/
theorem claim_C10_amended (content : List Char) (pre : List (List Char))
    (l : List Char) (post : List (List Char))
    (hsplit : pySplit '\n' (pyStrip content) = pre ++ l :: post)
    (hnb : pyStrip l ≠ []) (hnc : (pyStrip l).head? ≠ some '#')
    (hcolon : (pyStrip l).contains ':' = false)
    (hlater : ∀ l' ∈ post, lineClassName l' ≠ some (pyStrip l)) :
    dictGet? (parse_unified_class_config content).2 (pyStrip l) =
      some (defaultColorAt pre.length) := by
  have hcontent : content ≠ [] := by
    intro h
    subst h
    rw [show pyStrip ([] : List Char) = [] from rfl] at hsplit
    rw [show pySplit '\n' ([] : List Char) = [[]] from rfl] at hsplit
    cases pre with
    | nil =>
      simp only [List.nil_append] at hsplit
      injection hsplit with hl hrest
      subst hl
      exact hnb rfl
    | cons p ps =>
      simp only [List.cons_append] at hsplit
      injection hsplit with hp hrest
      simp at hrest
  unfold parse_unified_class_config
  rw [if_neg hcontent, hsplit]
  have hb := parseUnifiedLoop_bare_lookup pre 0 [] l post hnb hnc hcolon hlater
  simpa using hb

/-- Witness for C10 (amended): in `"# x\n\ncat"`, `cat` is the stripped
content's line 2 (after a comment line and a blank line) and is mapped to
`palette[2] = green`. -/
theorem claim_C10_amended_witness :
    dictGet? (parse_unified_class_config "# x\n\ncat".data).2 "cat".data =
      some "green".data := by
  have h := claim_C10_amended "# x\n\ncat".data ["# x".data, []] "cat".data []
    (by decide) (by decide) (by decide) (by decide)
    (fun l' hmem => absurd hmem (List.not_mem_nil l'))
  exact h

/-- C2, counterexample: with unified legend `"person:red"` (whose color map is
non-empty) and legacy color configuration `"Class 1:green"`, the detected
class index 1 resolves to the class name `Class 1`, which is absent from the
unified map but present in the legacy map; the code returns the palette color
`blue`, not the legacy `green` — the legacy map is never consulted when the
unified map is non-empty. -/
theorem claim_C2_counterexample :
    processColor "person:red".data "Class 1:green".data 1 = "blue".data ∧
    dictGet? (parse_color_config "Class 1:green".data) "Class 1".data =
      some "green".data ∧
    dictGet? (parse_unified_class_config "person:red".data).2 "Class 1".data =
      none ∧
    (parse_unified_class_config "person:red".data).2 ≠ [] ∧
    "blue".data ≠ "green".data := by
  decide

/-- C2, amended: when the unified legend's color map is non-empty, the legacy
color configuration is ignored entirely, and a detection resolves against the
unified map alone — exact class-name entry first, else the palette at
`class_index mod 18`.  (The legacy map is merged, wholesale, only when the
unified map is empty.) -/
theorem claim_C2_amended (class_names color_config_content : List Char)
    (class_id : Nat)
    (hne : (parse_unified_class_config class_names).2 ≠ []) :
    processColor class_names color_config_content class_id =
      resolveDetectionColor (parse_unified_class_config class_names).1
        (parse_unified_class_config class_names).2 class_id := by
  have h1 : ¬ ((parse_unified_class_config class_names).2 = [] ∧
      color_config_content ≠ []) := fun h => hne h.1
  simp only [processColor, buildColorMap]
  rw [if_neg h1, if_neg hne]

/-- Witness for C2 (amended) at the counterexample's inputs. -/
theorem claim_C2_amended_witness :
    processColor "person:red".data "Class 1:green".data 1 =
      resolveDetectionColor (parse_unified_class_config "person:red".data).1
        (parse_unified_class_config "person:red".data).2 1 :=
  claim_C2_amended "person:red".data "Class 1:green".data 1 (by decide)

/-- C5: color resolution is deterministic (the model is a pure function);
with an empty legend and no legacy configuration, class index `i < 18`
resolves to palette position `i`, this assignment is one-to-one on `0..17`,
and index 18 wraps to palette position 0. -/
theorem claim_C5 :
    (∀ class_names color_cfg class_id,
        processColor class_names color_cfg class_id =
          processColor class_names color_cfg class_id) ∧
    (∀ i : Nat, ∀ hi : i < 18,
        processColor [] [] i = get_default_colors.get ⟨i, hi⟩) ∧
    (∀ i j : Nat, i < 18 → j < 18 →
        processColor [] [] i = processColor [] [] j → i = j) ∧
    processColor [] [] 18 = get_default_colors.get ⟨0, by decide⟩ := by
  have hempty : ∀ i : Nat, processColor [] [] i = defaultColorAt i :=
    fun i => rfl
  have hnd : get_default_colors.Nodup := by decide
  refine ⟨fun _ _ _ => rfl, fun i hi => ?_, fun i j hi hj h => ?_, rfl⟩
  · rw [hempty]
    unfold defaultColorAt
    congr 1
    exact Fin.ext (Nat.mod_eq_of_lt hi)
  · rw [hempty, hempty] at h
    unfold defaultColorAt at h
    have hfin := (List.Nodup.get_inj_iff hnd).mp h
    have hval : i % 18 = j % 18 := congrArg Fin.val hfin
    rwa [Nat.mod_eq_of_lt hi, Nat.mod_eq_of_lt hj] at hval

/-- Witness for C5 at concrete indices 5 and 3. -/
theorem claim_C5_witness :
    processColor [] [] 5 = get_default_colors.get ⟨5, by decide⟩ ∧
    (3 : Nat) = 3 :=
  ⟨claim_C5.2.1 5 (by decide),
   claim_C5.2.2.1 3 3 (by decide) (by decide) rfl⟩

theorem filter_self_eq {α : Type} (p : α → Bool) (l : List α) :
    (l.filter p).filter p = l.filter p := by
  induction l with
  | nil => rfl
  | cons a t ih =>
    by_cases h : p a = true <;> simp [List.filter_cons, h, ih]

set_option maxRecDepth 8192 in
/-- C6: legend validation accepts `"cat:RED"` and stores its color
normalized to lowercase `red`; it rejects `"cat:neon"` with a validation
error message that names `neon` as the invalid color. -/
theorem claim_C6 :
    validate_class_color_file "cat:RED".data =
      (true, "Valid configuration with 1 classes".data,
        some ⟨[⟨"cat".data, some "red".data⟩]⟩) ∧
    (validate_class_color_file "cat:neon".data).1 = false ∧
    ∃ pre post, (validate_class_color_file "cat:neon".data).2.1 =
      pre ++ "Invalid color: neon".data ++ post := by
  refine ⟨by decide, by decide,
    "Validation errors: ".data,
    (". Valid colors are: red, blue, green, yellow, purple, orange, cyan, " ++
      "magenta, lime, pink, brown, gray, navy, olive, teal, maroon, fuchsia, aqua").data,
    by decide⟩

/-- C7: the image validator rejects a 0-byte file (undecodable — and the
`gt=0` size rule rejects even a hypothetically decodable empty file), a
51 MiB file, a 10001x10001 image, and a file named `a:b.jpg`; it accepts a
640x480 JPEG of 2 MiB with a safe filename. -/
theorem claim_C7 :
    (validate_image_file ⟨"empty.jpg".data, 0, none⟩).1 = false ∧
    (validate_image_file ⟨"zero.jpg".data, 0, some (10, 10)⟩).1 = false ∧
    (validate_image_file ⟨"big.png".data, 51 * 1024 * 1024, some (640, 480)⟩).1 = false ∧
    (validate_image_file ⟨"huge.png".data, 2 * 1024 * 1024, some (10001, 10001)⟩).1 = false ∧
    (validate_image_file ⟨"a:b.jpg".data, 2 * 1024 * 1024, some (640, 480)⟩).1 = false ∧
    validate_image_file ⟨"photo.jpg".data, 2 * 1024 * 1024, some (640, 480)⟩ =
      (true, ImageMsg.validImage 640 480 (2 * 1024 * 1024)) := by
  decide

/-- C3, code-bug evidence: a successfully decoded 640x480 image of 51 MiB is
rejected through the `"Invalid image format: ..."` message family, because
the `ImageValidation(...)` construction raises `ValidationError` inside the
inner `try` and the inner `except Exception` catches it first; the outer
`except ValidationError` handler that would report
`"Validation errors: file_size: ..."` is unreachable.  The claim (and the
spec) reserve the invalid-image-format reason for undecodable files. -/
theorem claim_C3_bug :
    (⟨"big.png".data, 51 * 1024 * 1024, some (640, 480)⟩ : UploadedFile).decoded ≠
      none ∧
    validate_image_file ⟨"big.png".data, 51 * 1024 * 1024, some (640, 480)⟩ =
      (false, ImageMsg.invalidFormatValidation
        [⟨"file_size".data, false,
          "ensure this value is less than or equal to 52428800".data⟩]) := by
  decide

/-- C8: annotating an image against an empty raw-detection list returns the
input image unchanged (the copy is pixel-identical, and the pure model leaves
the input untouched) together with an empty structured-detection list, for
every image, configuration, and text-measurement function. -/
theorem claim_C8 (image : PILImage) (class_names color_config_content : List Char)
    (tm : List Char → Nat × Nat) :
    process_image_with_yolo image [] class_names color_config_content tm =
      (image, []) := rfl

/-- C9: deleting a project removes every image row whose project reference is
that project, removes the project row, and removes the artifact file; the
action is total (a missing artifact is tolerated — filtering an absent path
changes nothing) and idempotent, so repeating it is an error-free no-op. -/
theorem claim_C9 (db : DBState) (pid : Nat) (model_path : List Char) :
    (∀ r ∈ (deleteProjectAction db pid model_path).images, r.project_id ≠ pid) ∧
    (∀ p ∈ (deleteProjectAction db pid model_path).projects, p.id ≠ pid) ∧
    model_path ∉ (deleteProjectAction db pid model_path).files ∧
    deleteProjectAction (deleteProjectAction db pid model_path) pid model_path =
      deleteProjectAction db pid model_path := by
  refine ⟨?_, ?_, ?_, ?_⟩
  · intro r hr
    simp only [deleteProjectAction] at hr
    rw [List.mem_filter] at hr
    simpa using hr.2
  · intro p hp
    simp only [deleteProjectAction] at hp
    rw [List.mem_filter] at hp
    simpa using hp.2
  · intro hmem
    simp only [deleteProjectAction] at hmem
    rw [List.mem_filter] at hmem
    simp at hmem
  · unfold deleteProjectAction
    simp only []
    rw [filter_self_eq, filter_self_eq, filter_self_eq]

/-- Witness for C9: in a concrete two-image database, after deleting project
1 the surviving image row references project 2, not project 1. -/
theorem claim_C9_witness :
    (⟨2, 2, []⟩ : ImageRow).project_id ≠ 1 :=
  (claim_C9 ⟨[⟨1, "p".data, "u".data, "m.pt".data, [], []⟩],
      [⟨1, 1, []⟩, ⟨2, 2, []⟩], ["m.pt".data]⟩ 1 "m.pt".data).1
    ⟨2, 2, []⟩ (by decide)
